import Mathlib

/-
Verification of the timoni bundle builder subsystem
(src/internal/engine/bundle_builder.go).

The development shallowly embeds the Go pipeline:
  InitWorkspace (stage + inject + schema append),
  Build (load, unify orphaned YAML overlays, validate concreteness),
  GetBundle (extract typed records via fixed path selectors).

The CUE evaluation engine is an external collaborator of the repository;
its operations (value model, unification, concreteness validation, field
iteration) are modelled from the interface contract the documentation
gives for it, and such definitions carry a note in their doc comment.
-/

namespace Timoni

/-! ## File system model used by the workspace stager -/

/-- A file system snapshot: association list from path to text content.
Writes prepend, reads take the most recent write. -/
abbrev FS := List (String × String)

def fsRead (fs : FS) (p : String) : Option String :=
  match fs with
  | [] => none
  | (q, d) :: rest => if q = p then some d else fsRead rest p

def fsWrite (fs : FS) (p d : String) : FS := (p, d) :: fs

/-- Models filepath.Split followed by taking the file component: the
characters after the last separator. -/
def baseName (p : String) : String :=
  String.mk ((p.data.reverse.takeWhile (fun c => c ≠ '/')).reverse)

/-- Destination name for the i-th staged file: workspace/i.originalName,
as built by fmt.Sprintf in InitWorkspace. -/
def dstName (ws : String) (i : Nat) (file : String) : String :=
  ws ++ "/" ++ toString i ++ "." ++ baseName file

/-- The destination names for a source list starting at index i. -/
def dstNames (ws : String) (i : Nat) : List String → List String
  | [] => []
  | f :: rest => dstName ws i f :: dstNames ws (i + 1) rest

/-- First loop of InitWorkspace: copy each source file to its
index-prefixed destination, failing on an unreadable source.
Returns the destination list and the updated file system; on error the
writes made so far remain, as with the Go copy helper. -/
def stageFiles (fs : FS) (ws : String) (files : List String) (i : Nat) :
    Except String (List String) × FS :=
  match files with
  | [] => (.ok [], fs)
  | file :: rest =>
    match fsRead fs file with
    | none => (.error ("copy failed: " ++ file), fs)
    | some data =>
      match stageFiles (fsWrite fs (dstName ws i file) data) ws rest (i + 1) with
      | (.ok ds, fs2) => (.ok (dstName ws i file :: ds), fs2)
      | (.error e, fs2) => (.error e, fs2)

/-- Second loop of InitWorkspace: run the attribute injector over every
staged file and write the rewritten text back.  Errors are wrapped as
failed to inject name, mirroring fmt.Errorf in the Go code. -/
def injectFiles (inj : String → Except String String) (fs : FS) (files : List String) :
    Except String Unit × FS :=
  match files with
  | [] => (.ok (), fs)
  | f :: rest =>
    match fsRead fs f with
    | none => (.error ("failed to inject " ++ baseName f ++ ": file not found"), fs)
    | some data =>
      match inj data with
      | .error e => (.error ("failed to inject " ++ baseName f ++ ": " ++ e), fs)
      | .ok out => injectFiles inj (fsWrite fs f out) rest

/-- Modelled from the spec: the fixed embedded schema contract text
(apiv1.BundleSchema, defined in the api package which is outside src). -/
def BundleSchema : String := "bundle schema contract"

/-- The builder state: ordered file list plus the attribute injector.
The cue context handle carries no observable state in this model. -/
structure BundleBuilder where
  files : List String
  injector : String → Except String String

/-- Path of the appended schema file: workspace/(n+1).schema.cue where n
is the length of the original source list, as in the Go code. -/
def schemaPath (ws : String) (n : Nat) : String :=
  ws ++ "/" ++ toString (n + 1) ++ ".schema.cue"

/-- InitWorkspace: stage all sources, inject, then append the schema
file last and replace the builder file list, only on full success.
Mirrors the mutation of the Go receiver: the returned builder is the
input builder unchanged whenever an error is returned. -/
def initWorkspace (b : BundleBuilder) (fs : FS) (ws : String) :
    Except String Unit × BundleBuilder × FS :=
  match stageFiles fs ws b.files 0 with
  | (.error e, fs1) => (.error e, b, fs1)
  | (.ok staged, fs1) =>
    match injectFiles b.injector fs1 staged with
    | (.error e, fs2) => (.error e, b, fs2)
    | (.ok _, fs2) =>
      (.ok (), { b with files := staged ++ [schemaPath ws b.files.length] },
       fsWrite fs2 (schemaPath ws b.files.length) BundleSchema)

/-! ## Value model of the evaluation engine -/

/-- Modelled from the spec: a partial-specification value of the
evaluation engine.  str and int are concrete scalars, struct is a
structured document, top is an unconstrained value, bottom is a
conflict or error carrying the field path at which it arose. -/
inductive CValue where
  | str : String → CValue
  | int : Int → CValue
  | struct : List (String × CValue) → CValue
  | top : CValue
  | bottom : List String → CValue
deriving Repr

/-- Look up a key in a struct field list (first occurrence). -/
def lookupField (fs : List (String × CValue)) (k : String) : Option CValue :=
  match fs with
  | [] => none
  | (q, v) :: rest => if q = k then some v else lookupField rest k

/-- Modelled from the spec: path-selector lookup into a value tree. -/
def lookupPath (v : CValue) (p : List String) : Option CValue :=
  match p with
  | [] => some v
  | k :: rest =>
    match v with
    | .struct fs =>
      match lookupField fs k with
      | some w => lookupPath w rest
      | none => none
    | _ => none

mutual
/-- Modelled from the spec: the unification (lattice meet) operation of
the evaluation engine.  Equal concrete scalars unify to that scalar;
unequal concrete scalars conflict, producing bottom with the full field
path; top is the identity; structs unify recursively per matching key,
keys present in only one side pass through unchanged. -/
def unify (p : List String) (a b : CValue) : CValue :=
  match a, b with
  | .bottom e, _ => .bottom e
  | _, .bottom e => .bottom e
  | .top, y => y
  | x, .top => x
  | .str s, .str t => if s = t then .str s else .bottom p
  | .int m, .int n => if m = n then .int m else .bottom p
  | .struct fs, .struct gs =>
    .struct (unifyLeft p fs gs ++ gs.filter (fun q => (lookupField fs q.1).isNone))
  | _, _ => .bottom p
termination_by sizeOf a

/-- Unify each left-side field against the matching right-side field,
keeping left-side order; a key absent on the right passes through. -/
def unifyLeft (p : List String) (fs gs : List (String × CValue)) :
    List (String × CValue) :=
  match fs with
  | [] => []
  | (k, v) :: rest =>
    (k, match lookupField gs k with
        | some w => unify (p ++ [k]) v w
        | none => v) :: unifyLeft p rest gs
termination_by sizeOf fs
end

/-- The field list of the unification of two structs. -/
def unifyFields (p : List String) (fs gs : List (String × CValue)) :
    List (String × CValue) :=
  unifyLeft p fs gs ++ gs.filter (fun q => (lookupField fs q.1).isNone)

mutual
/-- Modelled from the spec: the error slot of a value (v.Err in the
engine interface) — the path of the first conflict inside it, if any. -/
def firstErr (v : CValue) : Option (List String) :=
  match v with
  | .bottom p => some p
  | .struct fs => firstErrFields fs
  | _ => none
termination_by sizeOf v

def firstErrFields (fs : List (String × CValue)) : Option (List String) :=
  match fs with
  | [] => none
  | (_, v) :: rest =>
    match firstErr v with
    | some p => some p
    | none => firstErrFields rest
termination_by sizeOf fs
end

mutual
/-- Modelled from the spec: the concreteness check of the engine
(validate with the concrete option) — returns the first path, in field
order, whose value is not fully specified. -/
def firstNonConcrete (p : List String) (v : CValue) : Option (List String) :=
  match v with
  | .str _ => none
  | .int _ => none
  | .bottom q => some q
  | .top => some p
  | .struct fs => firstNonConcreteFields p fs
termination_by sizeOf v

def firstNonConcreteFields (p : List String) (fs : List (String × CValue)) :
    Option (List String) :=
  match fs with
  | [] => none
  | (k, v) :: rest =>
    match firstNonConcrete (p ++ [k]) v with
    | some q => some q
    | none => firstNonConcreteFields p rest
termination_by sizeOf fs
end

/-- A value is concrete when the concreteness check finds no fault. -/
def isConcrete (v : CValue) : Bool := (firstNonConcrete [] v).isNone

/-- Dotted rendering of a field path, for error messages. -/
def pathString (p : List String) : String := String.intercalate "." p

def incompleteMsg (p : List String) : String := pathString p ++ ": incomplete value"

def conflictMsg (p : List String) : String := pathString p ++ ": conflicting values"

/-! ## Load model and Build -/

/-- Modelled from the spec: the source encoding tag of a loaded file. -/
inductive Encoding where
  | cue : Encoding
  | yaml : Encoding
  | json : Encoding
  | text : Encoding
deriving Repr, DecidableEq

/-- Modelled from the spec: an orphaned data file of a load result.
parse is the outcome of extracting and building the file as a value
(yaml.Extract followed by BuildFile in the engine interface). -/
structure OrphanFile where
  Filename : String
  Encoding : Encoding
  parse : Except String CValue

/-- Modelled from the spec: one load result of the evaluation engine,
with its individual error slot, the value its instance builds to, and
its orphaned data files. -/
structure Instance where
  Err : Option String
  value : CValue
  OrphanedFiles : List OrphanFile

/-- The orphaned-file loop of Build: every orphaned file whose encoding
is YAML is extracted and unified onto the main value in order; a file
in any other encoding is skipped. -/
def unifyOrphans (v : CValue) (files : List OrphanFile) : Except String CValue :=
  match files with
  | [] => .ok v
  | f :: rest =>
    if f.Encoding = .yaml then
      match f.parse with
      | .error e => .error e
      | .ok a => unifyOrphans (unify [] v a) rest
    else unifyOrphans v rest

/-- Build: take the first load result, fail on an empty load or an
instance error, unify the YAML orphaned files onto the built value,
fail on a value error, then require full concreteness. -/
def build (load : List Instance) : Except String CValue :=
  match load with
  | [] => .error "no instances found"
  | inst :: _ =>
    match inst.Err with
    | some e => .error ("instance error: " ++ e)
    | none =>
      match unifyOrphans inst.value inst.OrphanedFiles with
      | .error e => .error e
      | .ok v =>
        match firstErr v with
        | some p => .error (conflictMsg p)
        | none =>
          match firstNonConcrete [] v with
          | some p => .error (incompleteMsg p)
          | none => .ok v

/-- The composition stage of Build, before the error and concreteness
checks: the value obtained by unifying the YAML overlays onto the
built instance value. -/
def composed (load : List Instance) : Except String CValue :=
  match load with
  | [] => .error "no instances found"
  | inst :: _ =>
    match inst.Err with
    | some e => .error ("instance error: " ++ e)
    | none => unifyOrphans inst.value inst.OrphanedFiles

/-! ## Path selectors and GetBundle -/

/-- Modelled from the spec: the fixed bundle-name path selector of the
api package (outside src). -/
def BundleName : List String := ["bundle", "name"]

/-- Modelled from the spec: the fixed instances-mapping path selector. -/
def BundleInstancesSelector : List String := ["bundle", "instances"]

/-- Modelled from the spec: the module repository URL path selector. -/
def BundleModuleURLSelector : List String := ["module", "url"]

/-- Modelled from the spec: the module version path selector. -/
def BundleModuleVersionSelector : List String := ["module", "version"]

/-- Modelled from the spec: the module digest path selector. -/
def BundleModuleDigestSelector : List String := ["module", "digest"]

/-- Modelled from the spec: the namespace path selector. -/
def BundleNamespaceSelector : List String := ["namespace"]

/-- Modelled from the spec: the values path selector. -/
def BundleValuesSelector : List String := ["values"]

structure ModuleReference where
  Repository : String
  Version : String
  Digest : String
deriving Repr, DecidableEq

structure BundleInstance where
  Bundle : String
  Name : String
  Namespace : String
  Module : ModuleReference
  Values : Option CValue
deriving Repr

structure Bundle where
  Name : String
  Instances : List BundleInstance
deriving Repr

/-- Modelled from the spec: iteration over the concrete entries of a
mapping, in field order; fails when the value is not a mapping. -/
def fieldsConcrete (v : CValue) : Except String (List (String × CValue)) :=
  match v with
  | .struct fs => .ok (fs.filter (fun q => isConcrete q.2))
  | _ => .error "not a struct"

/-- String extraction with the error discarded, as in the Go statements
of the form url, underscore assign vURL.String(): a missing path or a
non-string value leaves the zero value, the empty string. -/
def stringOrEmpty (v : CValue) (sel : List String) : String :=
  match lookupPath v sel with
  | some (.str s) => s
  | _ => ""

/-- The loop body of GetBundle: one BundleInstance record built from an
entry of the instances mapping. -/
def mkBundleInstance (bundleName nm : String) (expr : CValue) : BundleInstance :=
  { Bundle := bundleName
    Name := nm
    Namespace := stringOrEmpty expr BundleNamespaceSelector
    Module :=
      { Repository := stringOrEmpty expr BundleModuleURLSelector
        Version := stringOrEmpty expr BundleModuleVersionSelector
        Digest := stringOrEmpty expr BundleModuleDigestSelector }
    Values := lookupPath expr BundleValuesSelector }

/-- GetBundle: read the bundle name (a hard, named lookup error when it
is missing or not a string), look up the instances mapping (hard error
when missing), then map every concrete entry to a BundleInstance. -/
def getBundle (v : CValue) : Except String Bundle :=
  match lookupPath v BundleName with
  | some (.str bundleName) =>
    match lookupPath v BundleInstancesSelector with
    | some instances =>
      match fieldsConcrete instances with
      | .ok fields =>
        .ok { Name := bundleName
              Instances := fields.map (fun q => mkBundleInstance bundleName q.1 q.2) }
      | .error e => .error e
    | none => .error ("lookup " ++ pathString BundleInstancesSelector ++ " failed")
  | _ => .error ("lookup " ++ pathString BundleName ++ " failed")

/-- The concrete entries of the instances mapping of a value tree, as
GetBundle iterates them. -/
def instanceFields (v : CValue) : List (String × CValue) :=
  match lookupPath v BundleInstancesSelector with
  | some instances =>
    match fieldsConcrete instances with
    | .ok fields => fields
    | .error _ => []
  | none => []

/-! ## Helper lemmas -/

theorem getBundle_ok {v : CValue} {b : Bundle} (h : getBundle v = .ok b) :
    lookupPath v BundleName = some (.str b.Name) ∧
    b.Instances = (instanceFields v).map (fun q => mkBundleInstance b.Name q.1 q.2) := by
  unfold getBundle at h
  split at h
  next bn heq =>
    split at h
    next instances heq2 =>
      split at h
      next fields heq3 =>
        simp only [Except.ok.injEq] at h
        subst h
        exact ⟨heq, by simp [instanceFields, heq2, heq3]⟩
      next e heq3 => simp at h
    next heq2 => simp at h
  next heq => simp at h

theorem fsRead_write_same (fs : FS) (p d : String) :
    fsRead (fsWrite fs p d) p = some d := by
  simp [fsRead, fsWrite]

theorem fsRead_write_ne (fs : FS) (p q d : String) (h : p ≠ q) :
    fsRead (fsWrite fs p d) q = fsRead fs q := by
  simp [fsRead, fsWrite, h]

theorem stageFiles_names {ws : String} :
    ∀ {files : List String} {fs fs2 : FS} {i : Nat} {ds : List String},
      stageFiles fs ws files i = (.ok ds, fs2) → ds = dstNames ws i files := by
  intro files
  induction files with
  | nil => intro fs fs2 i ds h; simp_all [stageFiles, dstNames]
  | cons file rest ih =>
    intro fs fs2 i ds h
    unfold stageFiles at h
    split at h
    · simp at h
    · split at h
      next ds2 fs3 heq =>
        simp only [Prod.mk.injEq, Except.ok.injEq] at h
        obtain ⟨h1, h2⟩ := h
        subst h1
        simp [dstNames, ih heq]
      next => simp at h

theorem stageFiles_frame {ws : String} :
    ∀ {files : List String} {fs fs2 : FS} {i : Nat} {ds : List String},
      stageFiles fs ws files i = (.ok ds, fs2) →
      ∀ p, p ∉ ds → fsRead fs2 p = fsRead fs p := by
  intro files
  induction files with
  | nil => intro fs fs2 i ds h p _; simp_all [stageFiles]
  | cons file rest ih =>
    intro fs fs2 i ds h p hp
    unfold stageFiles at h
    split at h
    · simp at h
    next data hread =>
      split at h
      next ds2 fs3 heq =>
        simp only [Prod.mk.injEq, Except.ok.injEq] at h
        obtain ⟨h1, h2⟩ := h
        subst h1 h2
        have hne : dstName ws i file ≠ p := fun he => hp (he ▸ List.mem_cons_self _ _)
        have hp2 : p ∉ ds2 := fun hm => hp (List.mem_cons_of_mem _ hm)
        rw [ih heq p hp2, fsRead_write_ne _ _ _ _ hne]
      next => simp at h

theorem forall₂_imp_mem {α β : Type} {R S : α → β → Prop} :
    ∀ {l1 : List α} {l2 : List β}, List.Forall₂ R l1 l2 →
      (∀ a b, a ∈ l1 → b ∈ l2 → R a b → S a b) → List.Forall₂ S l1 l2 := by
  intro l1 l2 h
  induction h with
  | nil => intro _; exact List.Forall₂.nil
  | cons hab _ ih =>
    intro hmem
    exact List.Forall₂.cons
      (hmem _ _ (List.mem_cons_self _ _) (List.mem_cons_self _ _) hab)
      (ih fun a b ha hb => hmem a b (List.mem_cons_of_mem _ ha) (List.mem_cons_of_mem _ hb))

theorem stageFiles_copies {ws : String} :
    ∀ {files : List String} {fs fs2 : FS} {i : Nat} {ds : List String},
      stageFiles fs ws files i = (.ok ds, fs2) →
      (∀ d ∈ ds, d ∉ files) → ds.Nodup →
      List.Forall₂ (fun d s => fsRead fs2 d = fsRead fs s) ds files := by
  intro files
  induction files with
  | nil => intro fs fs2 i ds h _ _; simp_all [stageFiles]
  | cons file rest ih =>
    intro fs fs2 i ds h hdisj hnodup
    unfold stageFiles at h
    split at h
    · simp at h
    next data hread =>
      split at h
      next ds2 fs3 heq =>
        simp only [Prod.mk.injEq, Except.ok.injEq] at h
        obtain ⟨h1, h2⟩ := h
        subst h1
        rw [← h2]
        have hnd := List.nodup_cons.mp hnodup
        have hhead : fsRead fs3 (dstName ws i file) = fsRead fs file := by
          rw [stageFiles_frame heq _ hnd.1, fsRead_write_same, hread]
        refine List.Forall₂.cons hhead ?_
        have hdisj2 : ∀ d ∈ ds2, d ∉ rest := fun d hd hmem =>
          hdisj d (List.mem_cons_of_mem _ hd) (List.mem_cons_of_mem _ hmem)
        have hall := ih heq hdisj2 hnd.2
        refine forall₂_imp_mem hall ?_
        intro d s _ hs hr
        have hdst : dstName ws i file ≠ s := fun he =>
          hdisj (dstName ws i file) (List.mem_cons_self _ _)
            (he ▸ List.mem_cons_of_mem _ hs)
        rw [hr, fsRead_write_ne _ _ _ _ hdst]
      next => simp at h

theorem lookupField_append_some {xs ys : List (String × CValue)} {k : String}
    {v : CValue} (h : lookupField xs k = some v) :
    lookupField (xs ++ ys) k = some v := by
  induction xs with
  | nil => simp [lookupField] at h
  | cons q rest ih =>
    obtain ⟨qk, qv⟩ := q
    by_cases hk : qk = k
    · simp [lookupField, hk] at h ⊢; exact h
    · simp [lookupField, hk] at h ⊢; exact ih h

theorem lookupField_append_none {xs ys : List (String × CValue)} {k : String}
    (h : lookupField xs k = none) :
    lookupField (xs ++ ys) k = lookupField ys k := by
  induction xs with
  | nil => simp [lookupField]
  | cons q rest ih =>
    obtain ⟨qk, qv⟩ := q
    by_cases hk : qk = k
    · simp [lookupField, hk] at h
    · simp [lookupField, hk] at h ⊢; exact ih h

theorem unifyLeft_lookup_some {p : List String} {k : String} {v : CValue} :
    ∀ {fs gs : List (String × CValue)}, lookupField fs k = some v →
      lookupField gs k = none → lookupField (unifyLeft p fs gs) k = some v := by
  intro fs
  induction fs with
  | nil => intro gs h _; simp [lookupField] at h
  | cons q rest ih =>
    intro gs h hg
    obtain ⟨qk, qv⟩ := q
    by_cases hk : qk = k
    · subst hk
      simp [lookupField] at h
      subst h
      simp [unifyLeft, lookupField, hg]
    · simp [lookupField, hk] at h
      simp [unifyLeft, lookupField, hk]
      exact ih h hg

theorem unifyLeft_lookup_none {p : List String} {k : String} :
    ∀ {fs gs : List (String × CValue)}, lookupField fs k = none →
      lookupField (unifyLeft p fs gs) k = none := by
  intro fs
  induction fs with
  | nil => intro gs _; simp [unifyLeft, lookupField]
  | cons q rest ih =>
    intro gs h
    obtain ⟨qk, qv⟩ := q
    by_cases hk : qk = k
    · simp [lookupField, hk] at h
    · simp [lookupField, hk] at h
      simp [unifyLeft, lookupField, hk]
      exact ih h

theorem lookupField_filter_pass {k : String} {fs : List (String × CValue)}
    (hfs : lookupField fs k = none) :
    ∀ {gs : List (String × CValue)},
      lookupField (gs.filter (fun q => (lookupField fs q.1).isNone)) k
        = lookupField gs k := by
  intro gs
  induction gs with
  | nil => simp
  | cons q rest ih =>
    obtain ⟨qk, qv⟩ := q
    by_cases hk : qk = k
    · subst hk
      simp [List.filter_cons, hfs, lookupField]
    · by_cases hq : (lookupField fs qk).isNone
      · simp [List.filter_cons, hq, lookupField, hk]; exact ih
      · simp [List.filter_cons, hq, lookupField, hk]; exact ih

theorem unifyOrphans_skip (f : OrphanFile) (hf : f.Encoding ≠ .yaml) :
    ∀ (pre : List OrphanFile) (v : CValue) (post : List OrphanFile),
      unifyOrphans v (pre ++ f :: post) = unifyOrphans v (pre ++ post) := by
  intro pre
  induction pre with
  | nil => intro v post; simp [unifyOrphans, hf]
  | cons g rest ih =>
    intro v post
    by_cases hg : g.Encoding = Encoding.yaml
    · cases hp : g.parse with
      | error e => simp [unifyOrphans, hg, hp]
      | ok a => simp [unifyOrphans, hg, hp, ih]
    · simp [unifyOrphans, hg, ih]

theorem injectFiles_error_names_file
    {inj : String → Except String String} {m : String} :
    ∀ {files : List String} {fs : FS}, (injectFiles inj fs files).1 = .error m →
      ∃ f e, f ∈ files ∧ m = "failed to inject " ++ baseName f ++ ": " ++ e := by
  intro files
  induction files with
  | nil => intro fs h; simp [injectFiles] at h
  | cons f rest ih =>
    intro fs h
    unfold injectFiles at h
    split at h
    next hread =>
      simp only [Except.error.injEq] at h
      exact ⟨f, "file not found", List.mem_cons_self _ _,
        by simp [← h, String.append_assoc]⟩
    next data hread =>
      split at h
      next e hinj =>
        simp only [Except.error.injEq] at h
        exact ⟨f, e, List.mem_cons_self _ _, h.symm⟩
      next out hinj =>
        obtain ⟨g, e, hg, hm⟩ := ih h
        exact ⟨g, e, List.mem_cons_of_mem _ hg, hm⟩

/-! ## Claims -/

/-- A value tree whose single instance entry has no module repository
URL path at all: only a namespace field is set. -/
def urlFreeTree : CValue :=
  .struct [("bundle", .struct [("name", .str "test"),
    ("instances", .struct [("app", .struct [("namespace", .str "default")])])])]

/-- The bundle GetBundle extracts from urlFreeTree. -/
def urlFreeBundle : Bundle :=
  { Name := "test"
    Instances := [{ Bundle := "test", Name := "app", Namespace := "default",
                    Module := { Repository := "", Version := "", Digest := "" },
                    Values := none }] }

/-- Claim C1, counterexample: on a validated tree whose instance entry
has no module repository URL path, GetBundle does not return a hard
error — it succeeds and fills Repository with the empty string, because
the Go code discards the String() error for the URL exactly as it does
for version, digest and namespace. -/
theorem getBundle_missing_url_cex : getBundle urlFreeTree = .ok urlFreeBundle := by
  simp [getBundle, urlFreeTree, urlFreeBundle, lookupPath, lookupField, BundleName,
    BundleInstancesSelector, fieldsConcrete, isConcrete, firstNonConcrete,
    firstNonConcreteFields, List.filter_cons, mkBundleInstance, stringOrEmpty,
    BundleNamespaceSelector, BundleModuleURLSelector, BundleModuleVersionSelector,
    BundleModuleDigestSelector, BundleValuesSelector]

/-- Claim C1, amended: for every validated value tree, a missing module
repository URL path of an instance entry yields the empty string in the
Repository field without an error, exactly like a missing module
version, digest, or namespace path. -/
theorem getBundle_optional_fields (v : CValue) (b : Bundle) (nm : String)
    (expr : CValue) (hb : getBundle v = .ok b)
    (hmem : (nm, expr) ∈ instanceFields v) :
    ∃ r ∈ b.Instances, r.Name = nm ∧
      (lookupPath expr BundleModuleURLSelector = none → r.Module.Repository = "") ∧
      (lookupPath expr BundleModuleVersionSelector = none → r.Module.Version = "") ∧
      (lookupPath expr BundleModuleDigestSelector = none → r.Module.Digest = "") ∧
      (lookupPath expr BundleNamespaceSelector = none → r.Namespace = "") := by
  obtain ⟨_, hinst⟩ := getBundle_ok hb
  refine ⟨mkBundleInstance b.Name nm expr, ?_, rfl, ?_, ?_, ?_, ?_⟩
  · rw [hinst]
    exact List.mem_map_of_mem (fun q => mkBundleInstance b.Name q.1 q.2) hmem
  all_goals intro h; simp [mkBundleInstance, stringOrEmpty, h]

/-- Witness for the amended claim C1, at the concrete tree urlFreeTree. -/
theorem getBundle_optional_fields_witness :
    ∃ r ∈ urlFreeBundle.Instances, r.Name = "app" ∧
      (lookupPath (.struct [("namespace", .str "default")]) BundleModuleURLSelector = none →
        r.Module.Repository = "") ∧
      (lookupPath (.struct [("namespace", .str "default")]) BundleModuleVersionSelector = none →
        r.Module.Version = "") ∧
      (lookupPath (.struct [("namespace", .str "default")]) BundleModuleDigestSelector = none →
        r.Module.Digest = "") ∧
      (lookupPath (.struct [("namespace", .str "default")]) BundleNamespaceSelector = none →
        r.Namespace = "") :=
  getBundle_optional_fields urlFreeTree urlFreeBundle "app"
    (.struct [("namespace", .str "default")])
    (by simp [getBundle, urlFreeTree, urlFreeBundle, lookupPath, lookupField, BundleName,
      BundleInstancesSelector, fieldsConcrete, isConcrete, firstNonConcrete,
      firstNonConcreteFields, List.filter_cons, mkBundleInstance, stringOrEmpty,
      BundleNamespaceSelector, BundleModuleURLSelector, BundleModuleVersionSelector,
      BundleModuleDigestSelector, BundleValuesSelector])
    (by simp [instanceFields, urlFreeTree, lookupPath, lookupField,
      BundleInstancesSelector, fieldsConcrete, isConcrete, firstNonConcrete,
      firstNonConcreteFields, List.filter_cons])

/-- Claim C2: for every validated tree, GetBundle returns one
BundleInstance per concrete entry of the instances mapping, in the
iteration order of the mapping, and the Name of each record equals the
selector key of its entry. -/
theorem getBundle_extraction_order (v : CValue) (b : Bundle)
    (hb : getBundle v = .ok b) :
    b.Instances.length = (instanceFields v).length ∧
    List.Forall₂ (fun q r => r.Name = q.1) (instanceFields v) b.Instances := by
  obtain ⟨_, hinst⟩ := getBundle_ok hb
  constructor
  · rw [hinst, List.length_map]
  · rw [hinst, List.forall₂_map_right_iff]
    exact List.forall₂_same.mpr fun q _ => rfl

/-- Witness for claim C2 at the concrete tree urlFreeTree. -/
theorem getBundle_extraction_order_witness :
    urlFreeBundle.Instances.length = (instanceFields urlFreeTree).length ∧
    List.Forall₂ (fun q r => r.Name = q.1) (instanceFields urlFreeTree)
      urlFreeBundle.Instances :=
  getBundle_extraction_order urlFreeTree urlFreeBundle
    (by simp [getBundle, urlFreeTree, urlFreeBundle, lookupPath, lookupField, BundleName,
      BundleInstancesSelector, fieldsConcrete, isConcrete, firstNonConcrete,
      firstNonConcreteFields, List.filter_cons, mkBundleInstance, stringOrEmpty,
      BundleNamespaceSelector, BundleModuleURLSelector, BundleModuleVersionSelector,
      BundleModuleDigestSelector, BundleValuesSelector])

/-- Claim C9: in every Bundle returned by GetBundle, the Bundle field of
every BundleInstance equals the Name of the Bundle itself, the value
read from the bundle-name path. -/
theorem getBundle_bundle_field (v : CValue) (b : Bundle)
    (hb : getBundle v = .ok b) : ∀ r ∈ b.Instances, r.Bundle = b.Name := by
  obtain ⟨_, hinst⟩ := getBundle_ok hb
  intro r hr
  rw [hinst] at hr
  obtain ⟨q, _, rfl⟩ := List.mem_map.mp hr
  rfl

/-- Witness for claim C9 at the concrete tree urlFreeTree and its
single extracted record. -/
theorem getBundle_bundle_field_witness :
    ({ Bundle := "test", Name := "app", Namespace := "default",
       Module := { Repository := "", Version := "", Digest := "" },
       Values := none } : BundleInstance).Bundle = urlFreeBundle.Name :=
  getBundle_bundle_field urlFreeTree urlFreeBundle
    (by simp [getBundle, urlFreeTree, urlFreeBundle, lookupPath, lookupField, BundleName,
      BundleInstancesSelector, fieldsConcrete, isConcrete, firstNonConcrete,
      firstNonConcreteFields, List.filter_cons, mkBundleInstance, stringOrEmpty,
      BundleNamespaceSelector, BundleModuleURLSelector, BundleModuleVersionSelector,
      BundleModuleDigestSelector, BundleValuesSelector])
    { Bundle := "test", Name := "app", Namespace := "default",
      Module := { Repository := "", Version := "", Digest := "" },
      Values := none }
    (by simp [urlFreeBundle])

/-- Claim C3: Build applies the concreteness gate to the composed value
and never substitutes a default: when some field reachable from the
schema paths is still unresolved, Build fails with a validation error
naming the first unresolved path, and otherwise it returns exactly the
composed value, unchanged.  The concreteness check itself is the
evaluation-engine operation, modelled from the spec. -/
theorem build_concreteness_gate (load : List Instance) (v : CValue)
    (hc : composed load = .ok v) (he : firstErr v = none) :
    build load = (match firstNonConcrete [] v with
      | some p => .error (incompleteMsg p)
      | none => .ok v) := by
  cases load with
  | nil => simp [composed] at hc
  | cons inst rest =>
    cases hErr : inst.Err with
    | some e => simp [composed, hErr] at hc
    | none =>
      simp only [composed, hErr] at hc
      simp [build, hErr, hc, he]

/-- Witness for claim C3: a composed value with one unresolved field
makes Build fail with the validation error naming that path. -/
theorem build_concreteness_gate_witness :
    build [{ Err := none, value := .struct [("a", .top)], OrphanedFiles := [] }]
      = .error "a: incomplete value" :=
  (build_concreteness_gate
    [{ Err := none, value := .struct [("a", .top)], OrphanedFiles := [] }]
    (.struct [("a", .top)]) rfl
    (by simp [firstErr, firstErrFields])).trans
    (by simp [firstNonConcrete, firstNonConcreteFields, incompleteMsg, pathString]
        rfl)

/-- Claim C6: the pipeline is a pure function of its ordered inputs, so
building the same load result twice yields identical output, and
extracting from equal value trees yields identical Bundles. -/
theorem build_deterministic (l1 l2 : List Instance) (h : l1 = l2) :
    build l1 = build l2 ∧
    ∀ v1 v2 : CValue, v1 = v2 → getBundle v1 = getBundle v2 := by
  subst h
  exact ⟨rfl, fun _ _ hv => by rw [hv]⟩

/-- Witness for claim C6 at a concrete load result. -/
theorem build_deterministic_witness :
    build [{ Err := none, value := .str "x", OrphanedFiles := [] }]
      = build [{ Err := none, value := .str "x", OrphanedFiles := [] }] ∧
    ∀ v1 v2 : CValue, v1 = v2 → getBundle v1 = getBundle v2 :=
  build_deterministic [{ Err := none, value := .str "x", OrphanedFiles := [] }]
    [{ Err := none, value := .str "x", OrphanedFiles := [] }] rfl

/-- Claim C8: Build merges only the orphaned data files whose encoding
is YAML onto the main value; an orphaned file in any other encoding is
silently skipped — removing it from the load result changes neither the
composed value nor the error behaviour of Build. -/
theorem build_skips_non_yaml (inst : Instance) (rest : List Instance)
    (pre post : List OrphanFile) (f : OrphanFile) (hf : f.Encoding ≠ .yaml) :
    build ({ Err := inst.Err, value := inst.value,
             OrphanedFiles := pre ++ f :: post } :: rest)
      = build ({ Err := inst.Err, value := inst.value,
                 OrphanedFiles := pre ++ post } :: rest) := by
  cases hErr : inst.Err with
  | some e => simp [build, hErr]
  | none => simp [build, hErr, unifyOrphans_skip f hf pre inst.value post]

/-- Witness for claim C8: a JSON-encoded orphaned file whose parse
result would conflict is skipped without any effect. -/
theorem build_skips_non_yaml_witness :
    build [{ Err := none, value := .str "x",
             OrphanedFiles := [{ Filename := "a.json", Encoding := .json,
                                 parse := .ok (.str "y") }] }]
      = build [{ Err := none, value := .str "x", OrphanedFiles := [] }] :=
  build_skips_non_yaml
    { Err := none, value := .str "x", OrphanedFiles := [] } [] [] []
    { Filename := "a.json", Encoding := .json, parse := .ok (.str "y") }
    (by simp)

/-- Claim C7: the unification operation satisfies the documented merge
contract — equal concrete scalars unify to that scalar; unequal
concrete scalars at the same path conflict in either order, with the
error naming the full field path; keys present in only one side pass
through unchanged; and nested conflicts surface with the full path.
The operation is the evaluation-engine primitive, modelled from the
spec. -/
theorem unify_merge_semantics (p : List String) :
    (∀ a : String, unify p (.str a) (.str a) = .str a) ∧
    (∀ a b : String, a ≠ b →
      unify p (.str a) (.str b) = .bottom p ∧
      unify p (.str b) (.str a) = .bottom p) ∧
    (∀ (fs gs : List (String × CValue)) (k : String) (v : CValue),
      lookupField fs k = some v → lookupField gs k = none →
      lookupField (unifyFields p fs gs) k = some v) ∧
    (∀ (fs gs : List (String × CValue)) (k : String) (v : CValue),
      lookupField fs k = none → lookupField gs k = some v →
      lookupField (unifyFields p fs gs) k = some v) ∧
    (∀ (k a b : String), a ≠ b →
      firstErr (unify p (.struct [(k, .str a)]) (.struct [(k, .str b)]))
        = some (p ++ [k])) := by
  refine ⟨?_, ?_, ?_, ?_, ?_⟩
  · intro a; simp [unify]
  · intro a b hab
    exact ⟨by simp [unify, hab], by simp [unify, Ne.symm hab]⟩
  · intro fs gs k v hf hg
    exact lookupField_append_some (unifyLeft_lookup_some hf hg)
  · intro fs gs k v hf hg
    rw [unifyFields, lookupField_append_none (unifyLeft_lookup_none hf),
      lookupField_filter_pass hf, hg]
  · intro k a b hab
    simp [unify, unifyLeft, lookupField, List.filter_cons, hab,
      firstErr, firstErrFields]

/-- Witness for claim C7 at concrete scalars and field lists. -/
theorem unify_merge_semantics_witness :
    unify ["i"] (.str "a") (.str "a") = .str "a" ∧
    unify ["i"] (.str "a") (.str "b") = .bottom ["i"] ∧
    unify ["i"] (.str "b") (.str "a") = .bottom ["i"] ∧
    lookupField (unifyFields ["i"] [("k", .str "v")] []) "k" = some (.str "v") ∧
    lookupField (unifyFields ["i"] [] [("k", .str "v")]) "k" = some (.str "v") ∧
    firstErr (unify ["i"] (.struct [("k", .str "a")]) (.struct [("k", .str "b")]))
      = some ["i", "k"] := by
  obtain ⟨h1, h2, h3, h4, h5⟩ := unify_merge_semantics ["i"]
  have hab : "a" ≠ "b" := by decide
  exact ⟨h1 "a", (h2 "a" "b" hab).1, (h2 "a" "b" hab).2,
    h3 [("k", .str "v")] [] "k" (.str "v") rfl rfl,
    h4 [] [("k", .str "v")] "k" (.str "v") rfl rfl,
    h5 "k" "a" "b" hab⟩

/-- Claim C5, counterexample: the instance-load error of Build is
wrapped only with the constant prefix instance error, which names
neither a staged filename nor a field path.  For a concrete failing
load the full returned message contains no dot character at all, while
every staged filename (index dot originalName) and every dotted field
path contains one. -/
theorem build_unwrapped_error_cex :
    build [{ Err := some "boom", value := .top, OrphanedFiles := [] }]
      = .error "instance error: boom" ∧
    ("instance error: boom".data.contains (Char.ofNat 46)) = false :=
  ⟨rfl, by decide⟩

/-- Claim C5, amended: injection errors in InitWorkspace are wrapped
with the originating staged filename with the underlying diagnostic
preserved inside the message; Build never swallows engine errors and
preserves the underlying diagnostic, but does not wrap them with a
staged filename — the instance load error gets only the constant
prefix instance error, and the remaining engine errors are returned as
produced: the extraction error of an orphaned YAML file, the error of
the composed value, and the validation error each come back exactly as
the engine yields them. -/
theorem error_wrapping_amended :
    (∀ (inj : String → Except String String) (fs : FS) (files : List String)
      (m : String), (injectFiles inj fs files).1 = .error m →
      ∃ f e, f ∈ files ∧ m = "failed to inject " ++ baseName f ++ ": " ++ e) ∧
    (∀ (inst : Instance) (rest : List Instance) (e : String),
      inst.Err = some e → build (inst :: rest) = .error ("instance error: " ++ e)) ∧
    (∀ (inst : Instance) (rest : List Instance) (e : String),
      inst.Err = none → unifyOrphans inst.value inst.OrphanedFiles = .error e →
      build (inst :: rest) = .error e) ∧
    (∀ (inst : Instance) (rest : List Instance) (v : CValue) (p : List String),
      inst.Err = none → unifyOrphans inst.value inst.OrphanedFiles = .ok v →
      firstErr v = some p → build (inst :: rest) = .error (conflictMsg p)) ∧
    (∀ (inst : Instance) (rest : List Instance) (v : CValue) (p : List String),
      inst.Err = none → unifyOrphans inst.value inst.OrphanedFiles = .ok v →
      firstErr v = none → firstNonConcrete [] v = some p →
      build (inst :: rest) = .error (incompleteMsg p)) := by
  refine ⟨fun inj fs files m h => injectFiles_error_names_file h, ?_, ?_, ?_, ?_⟩
  · intro inst rest e he
    simp [build, he]
  · intro inst rest e he hu
    simp [build, he, hu]
  · intro inst rest v p he hu hv
    simp [build, he, hu, hv]
  · intro inst rest v p he hu hv hn
    simp [build, he, hu, hv, hn]

/-- Witness for the amended claim C5: a concrete failing injector, a
concrete failing load, a concrete failing YAML extraction, a concrete
erroneous composed value, and a concrete incomplete composed value. -/
theorem error_wrapping_amended_witness :
    (∃ f e, f ∈ ["ws/0.app.cue"] ∧
      "failed to inject 0.app.cue: bad marker"
        = "failed to inject " ++ baseName f ++ ": " ++ e) ∧
    build [{ Err := some "boom", value := .top, OrphanedFiles := [] }]
      = .error ("instance error: " ++ "boom") ∧
    build [{ Err := none, value := .str "x",
             OrphanedFiles := [{ Filename := "a.yaml", Encoding := .yaml,
                                 parse := .error "yaml parse fail" }] }]
      = .error "yaml parse fail" ∧
    build [{ Err := none, value := .bottom ["a"], OrphanedFiles := [] }]
      = .error (conflictMsg ["a"]) ∧
    build [{ Err := none, value := .struct [("b", .top)], OrphanedFiles := [] }]
      = .error (incompleteMsg ["b"]) := by
  obtain ⟨h1, h2, h3, h4, h5⟩ := error_wrapping_amended
  refine ⟨?_, ?_, ?_, ?_, ?_⟩
  · exact h1 (fun _ => .error "bad marker") [("ws/0.app.cue", "text")]
      ["ws/0.app.cue"] "failed to inject 0.app.cue: bad marker" (by rfl)
  · exact h2 { Err := some "boom", value := .top, OrphanedFiles := [] } [] "boom" rfl
  · exact h3 { Err := none, value := .str "x",
               OrphanedFiles := [{ Filename := "a.yaml", Encoding := .yaml,
                                   parse := .error "yaml parse fail" }] } []
      "yaml parse fail" rfl rfl
  · exact h4 { Err := none, value := .bottom ["a"], OrphanedFiles := [] } []
      (.bottom ["a"]) ["a"] rfl rfl (by simp [firstErr])
  · exact h5 { Err := none, value := .struct [("b", .top)], OrphanedFiles := [] } []
      (.struct [("b", .top)]) ["b"] rfl rfl
      (by simp [firstErr, firstErrFields])
      (by simp [firstNonConcrete, firstNonConcreteFields])

theorem initWorkspace_ok_parts (b : BundleBuilder) (fs : FS) (ws : String)
    (h : (initWorkspace b fs ws).1 = .ok ()) :
    (initWorkspace b fs ws).2.1.files
      = dstNames ws 0 b.files ++ [schemaPath ws b.files.length] ∧
    fsRead (initWorkspace b fs ws).2.2 (schemaPath ws b.files.length)
      = some BundleSchema := by
  cases hstage : stageFiles fs ws b.files 0 with
  | mk res fs1 =>
    cases res with
    | error e => simp [initWorkspace, hstage] at h
    | ok staged =>
      cases hinj : injectFiles b.injector fs1 staged with
      | mk res2 fs2 =>
        cases res2 with
        | error e2 => simp [initWorkspace, hstage, hinj] at h
        | ok u =>
          constructor
          · simp only [initWorkspace, hstage, hinj]
            rw [stageFiles_names hstage]
          · simp only [initWorkspace, hstage, hinj]
            exact fsRead_write_same _ _ _

/-- A two-file builder with an identity injector, for the witnesses. -/
def wsBuilder : BundleBuilder :=
  { files := ["dir/app.cue", "dir/values.cue"], injector := fun s => .ok s }

/-- A file system holding the two source files of wsBuilder. -/
def wsFS : FS := [("dir/app.cue", "A"), ("dir/values.cue", "B")]

/-- A builder whose single source file is absent from the file system. -/
def badBuilder : BundleBuilder :=
  { files := ["dir/app.cue"], injector := fun s => .ok s }

/-- Claim C4: on success, InitWorkspace stages the i-th source file at
destination workspace/i.originalName preserving input order, appends
the embedded schema document as the final element of the staged file
list, writes the schema text there, and the staged copies carry the
content of their sources (when the destinations are fresh names). -/
theorem initWorkspace_staging (b : BundleBuilder) (fs : FS) (ws : String)
    (h : (initWorkspace b fs ws).1 = .ok ()) :
    (initWorkspace b fs ws).2.1.files
      = dstNames ws 0 b.files ++ [schemaPath ws b.files.length] ∧
    fsRead (initWorkspace b fs ws).2.2 (schemaPath ws b.files.length)
      = some BundleSchema ∧
    (∀ ds fs2, stageFiles fs ws b.files 0 = (.ok ds, fs2) →
      ds = dstNames ws 0 b.files ∧
      ((∀ d ∈ ds, d ∉ b.files) → ds.Nodup →
        List.Forall₂ (fun d s => fsRead fs2 d = fsRead fs s) ds b.files)) := by
  refine ⟨(initWorkspace_ok_parts b fs ws h).1, (initWorkspace_ok_parts b fs ws h).2, ?_⟩
  intro ds fs2 hsf
  exact ⟨stageFiles_names hsf,
    fun hdisj hnodup => stageFiles_copies hsf hdisj hnodup⟩

/-- Witness for claim C4 at a concrete two-file builder. -/
theorem initWorkspace_staging_witness :
    (initWorkspace wsBuilder wsFS "ws").2.1.files
      = dstNames "ws" 0 wsBuilder.files ++ [schemaPath "ws" wsBuilder.files.length] ∧
    fsRead (initWorkspace wsBuilder wsFS "ws").2.2
        (schemaPath "ws" wsBuilder.files.length)
      = some BundleSchema ∧
    (∀ ds fs2, stageFiles wsFS "ws" wsBuilder.files 0 = (.ok ds, fs2) →
      ds = dstNames "ws" 0 wsBuilder.files ∧
      ((∀ d ∈ ds, d ∉ wsBuilder.files) → ds.Nodup →
        List.Forall₂ (fun d s => fsRead fs2 d = fsRead wsFS s) ds wsBuilder.files)) :=
  initWorkspace_staging wsBuilder wsFS "ws" rfl

/-- Claim C10: InitWorkspace mutates the builder file list only on
success — on an error the builder is returned unchanged, and on
success its file list becomes the staged workspace paths with the
schema file appended last, the list a subsequent Build loads. -/
theorem initWorkspace_files_mutation (b : BundleBuilder) (fs : FS) (ws : String) :
    (∀ e, (initWorkspace b fs ws).1 = .error e → (initWorkspace b fs ws).2.1 = b) ∧
    ((initWorkspace b fs ws).1 = .ok () →
      (initWorkspace b fs ws).2.1.files
        = dstNames ws 0 b.files ++ [schemaPath ws b.files.length]) := by
  cases hstage : stageFiles fs ws b.files 0 with
  | mk res fs1 =>
    cases res with
    | error e => simp [initWorkspace, hstage]
    | ok staged =>
      cases hinj : injectFiles b.injector fs1 staged with
      | mk res2 fs2 =>
        cases res2 with
        | error e2 => simp [initWorkspace, hstage, hinj]
        | ok u =>
          cases u
          refine ⟨?_, ?_⟩
          · intro e he
            simp [initWorkspace, hstage, hinj] at he
          · intro _
            simp only [initWorkspace, hstage, hinj]
            rw [stageFiles_names hstage]

/-- Witness for claim C10: a failing staging run leaves the builder
untouched, and a successful run installs the staged list with the
schema file last. -/
theorem initWorkspace_files_mutation_witness :
    (initWorkspace badBuilder [] "ws").2.1 = badBuilder ∧
    (initWorkspace wsBuilder wsFS "ws").2.1.files
      = dstNames "ws" 0 wsBuilder.files ++ [schemaPath "ws" wsBuilder.files.length] :=
  ⟨(initWorkspace_files_mutation badBuilder [] "ws").1 ("copy failed: dir/app.cue") rfl,
   (initWorkspace_files_mutation wsBuilder wsFS "ws").2 rfl⟩

end Timoni
